import Mathlib

/-!
Formal model of the c3ss Network daily check-in bot (`src/index.js`).

The bot loads line-delimited tokens and proxies, builds one retrying HTTP
client per account, performs a status check / check-in / re-verification
sequence per account, tallies the outcomes, and repeats the whole batch
after a configurable delay.  The definitions below are a shallow embedding
of that program: file contents are `List Char` (JavaScript strings), HTTP
responses are explicit `Except` values supplied by an environment, and the
event traces (HTTP calls, inter-account delays, batch runs) are reified as
lists so that ordering claims can be stated.
-/

namespace Cess

/-! ## Token and proxy loading (`loadTokens`, `loadProxies`) -/

/-- The whitespace test used when trimming a line, as JavaScript
`String.prototype.trim` behaves on the ASCII data files the bot reads:
space, tab, line feed, vertical tab, form feed, carriage return. -/
def isJsWhitespace (c : Char) : Bool :=
  c = ' ' || c = '\t' || c = '\n' || c = '\x0b' || c = '\x0c' || c = '\r'

/-- JavaScript `data.split('\n')`: split a string into the segments between
newline characters.  `''.split('\n')` is `['']`, so the empty list of
characters maps to `[[]]`. -/
def splitLines : List Char → List (List Char)
  | [] => [[]]
  | c :: cs =>
    if c = '\n' then [] :: splitLines cs
    else
      match splitLines cs with
      | [] => [[c]]
      | l :: ls => (c :: l) :: ls

/-- JavaScript `line.trim()`: remove leading and trailing whitespace. -/
def trimChars (s : List Char) : List Char :=
  ((s.dropWhile isJsWhitespace).reverse.dropWhile isJsWhitespace).reverse

/-- JavaScript `line.startsWith('#')`. -/
def startsWithHash : List Char → Bool
  | [] => false
  | c :: _ => c = '#'

/-- `loadTokens` from `src/index.js`: if `data.txt` is missing the process
exits (modelled as `none`); otherwise the file content is split on newlines,
each line is trimmed, and lines that are empty (falsy) or start with `#` are
dropped. -/
def loadTokens (dataTxtExists : Bool) (data : List Char) : Option (List (List Char)) :=
  if dataTxtExists = false then none
  else
    some (((splitLines data).map trimChars).filter
      (fun line => !line.isEmpty && !startsWithHash line))

/-- `loadProxies` from `src/index.js`: returns `[]` when `config.useProxy`
is false, or when `proxy.txt` is missing; otherwise the same
split/trim/filter pipeline as `loadTokens`. -/
def loadProxies (useProxy : Bool) (proxyTxtExists : Bool) (data : List Char) :
    List (List Char) :=
  if useProxy = false then []
  else if proxyTxtExists = false then []
  else
    ((splitLines data).map trimChars).filter
      (fun line => !line.isEmpty && !startsWithHash line)

/-- The loaded-lines pipeline as the specification words it: the lines of the
file, in file order, after trimming, with every line removed that is empty
after trimming or whose trimmed form starts with `#`. -/
def specLoadedLines (data : List Char) : List (List Char) :=
  ((splitLines data).map trimChars).filter
    (fun line => !line.isEmpty && !startsWithHash line)

/-! ## The retrying HTTP client (`createAxiosInstance`) -/

/-- An axios error as the retry predicate sees it: `responseStatus` is
`some s` when an HTTP response with status `s` was received (JavaScript
`error.response`), `none` when the request failed before any response;
`code` is JavaScript `error.code` (`none` when `undefined`). -/
structure HttpError where
  responseStatus : Option Nat
  code : Option String
  deriving DecidableEq, Repr

/-- Modelled from the `is-retry-allowed` package used by `axios-retry` v3:
the deny-list of error codes for which no retry is allowed. -/
def denyList : List String :=
  ["ENOTFOUND", "ENETUNREACH",
   "UNABLE_TO_GET_ISSUER_CERT", "UNABLE_TO_GET_CRL",
   "UNABLE_TO_DECRYPT_CERT_SIGNATURE", "UNABLE_TO_DECRYPT_CRL_SIGNATURE",
   "UNABLE_TO_DECODE_ISSUER_PUBLIC_KEY", "CERT_SIGNATURE_FAILURE",
   "CRL_SIGNATURE_FAILURE", "CERT_NOT_YET_VALID", "CERT_HAS_EXPIRED",
   "CRL_NOT_YET_VALID", "CRL_HAS_EXPIRED", "ERROR_IN_CERT_NOT_BEFORE_FIELD",
   "ERROR_IN_CERT_NOT_AFTER_FIELD", "ERROR_IN_CRL_LAST_UPDATE_FIELD",
   "ERROR_IN_CRL_NEXT_UPDATE_FIELD", "OUT_OF_MEM",
   "DEPTH_ZERO_SELF_SIGNED_CERT", "SELF_SIGNED_CERT_IN_CHAIN",
   "UNABLE_TO_GET_ISSUER_CERT_LOCALLY", "UNABLE_TO_VERIFY_LEAF_SIGNATURE",
   "CERT_CHAIN_TOO_LONG", "CERT_REVOKED", "INVALID_CA",
   "PATH_LENGTH_EXCEEDED", "INVALID_PURPOSE", "CERT_UNTRUSTED",
   "CERT_REJECTED", "HOSTNAME_MISMATCH"]

/-- Modelled from `is-retry-allowed`: an error may be retried unless its
code is on the deny-list (an `undefined` code is allowed). -/
def isRetryAllowed (e : HttpError) : Bool :=
  !(denyList.contains (e.code.getD ""))

/-- Modelled from `axios-retry` v3 `isNetworkError`: no response was
received, the error carries a truthy code other than `ECONNABORTED`, and
`is-retry-allowed` permits a retry. -/
def isNetworkError (e : HttpError) : Bool :=
  e.responseStatus.isNone &&
    !(e.code.getD "").isEmpty &&
    !(e.code.getD "" == "ECONNABORTED") &&
    isRetryAllowed e

/-- Modelled from `axios-retry` v3 `isRetryableError`: the code is not
`ECONNABORTED`, and either no response was received or the response status
lies in 500..599. -/
def isRetryableError (e : HttpError) : Bool :=
  !(e.code.getD "" == "ECONNABORTED") &&
    (match e.responseStatus with
     | none => true
     | some s => decide (500 ≤ s) && decide (s ≤ 599))

/-- The `retryCondition` installed by `createAxiosInstance` in
`src/index.js`: the code's comment says "Retry on network errors, 429, 500,
502, 503, 504 status codes", and the body is
`isNetworkError(error) || isRetryableError(error) ||
 (error.response && [429, 500, 502, 503, 504].includes(error.response.status))`. -/
def retryCondition (e : HttpError) : Bool :=
  isNetworkError e || isRetryableError e ||
    (match e.responseStatus with
     | some s => [429, 500, 502, 503, 504].contains s
     | none => false)

/-- The `retryDelay` callback installed by `createAxiosInstance`:
`Math.pow(2, retryCount) * config.retryDelay`. -/
def retryDelay (configRetryDelay : Nat) (retryCount : Nat) : Nat :=
  2 ^ retryCount * configRetryDelay

/-- Modelled from the `axios-retry` request-error interceptor: the list of
delays slept before the successive retries of one request.  `out i` is
`some e` when attempt `i` (0-based) fails with error `e` and `none` when it
succeeds; `budget` is the remaining number of allowed retries
(`config.maxRetries` at the start) and `n` the number of retries already
performed.  A retry happens only when budget remains and `cond` accepts the
error; retry number `n + 1` sleeps `retryDelay base (n + 1)`. -/
def retryDelays (cond : HttpError → Bool) (base : Nat) (out : Nat → Option HttpError) :
    Nat → Nat → List Nat
  | budget, n =>
    match out n, budget with
    | none, _ => []
    | some _, 0 => []
    | some e, b + 1 =>
      if cond e then retryDelay base (n + 1) :: retryDelays cond base out b (n + 1)
      else []

/-- The per-account axios client built by `createAxiosInstance`: it carries
the account token header and, when a truthy proxy string was supplied, an
`HttpsProxyAgent` for it (`if (proxy) instance.defaults.httpsAgent = ...`). -/
structure AxiosInstance where
  token : String
  httpsAgent : Option String
  deriving DecidableEq, Repr

/-- `createAxiosInstance` from `src/index.js`, restricted to the state the
claims are about: the token header and the optional proxy agent. -/
def createAxiosInstance (token : String) (proxy : Option String) : AxiosInstance :=
  { token := token
    httpsAgent :=
      match proxy with
      | some p => if p.isEmpty then none else some p
      | none => none }

/-! ## Per-account processing (`checkAccountStatus`, `performDailyCheckin`,
`processAccount`) -/

/-- The JSON body of a status response: `data.code` and
`data.data.actsMap["Daily Check-in"].done`. -/
structure StatusData where
  code : Nat
  dailyCheckinDone : Bool
  deriving DecidableEq, Repr

/-- The JSON body of a check-in response: `data.code` (and `data.data`, the
points earned, which the program only logs). -/
structure CheckinData where
  code : Nat
  deriving DecidableEq, Repr

/-- One HTTP call the account processor can issue. -/
inductive Call
  | getStatus
  | postCheckin
  deriving DecidableEq, Repr

/-- The network environment of one `processAccount` run: what each of the
(at most three) HTTP requests would produce, after the client's internal
retries.  `.error msg` is an axios request that ultimately throws, `.ok`
a request that resolves with the given JSON body. -/
structure Env where
  firstStatus : Except String StatusData
  checkin : Except String CheckinData
  secondStatus : Except String StatusData
  deriving Repr

/-- `checkAccountStatus` from `src/index.js`: issue the GET to the status
endpoint (recorded in the call trace), throw `Invalid response code: _` when
the body code is not 200, otherwise return whether the daily check-in is
done.  The catch block logs and rethrows, so errors pass through. -/
def checkAccountStatus (resp : Except String StatusData) :
    Except String Bool × List Call :=
  (match resp with
   | .error msg => .error msg
   | .ok d =>
     if d.code ≠ 200 then .error ("Invalid response code: " ++ toString d.code)
     else .ok d.dailyCheckinDone,
   [Call.getStatus])

/-- `performDailyCheckin` from `src/index.js`: issue the POST to the
check-in endpoint, throw `Invalid response code: _` when the body code is
not 200, otherwise return `true`.  The catch block logs and rethrows. -/
def performDailyCheckin (resp : Except String CheckinData) :
    Except String Bool × List Call :=
  (match resp with
   | .error msg => .error msg
   | .ok d =>
     if d.code ≠ 200 then .error ("Invalid response code: " ++ toString d.code)
     else .ok true,
   [Call.postCheckin])

/-- The value `processAccount` resolves with: `{success: true,
alreadyCheckedIn}` or `{success: false, error}`. -/
inductive AccountResult
  | success (alreadyCheckedIn : Bool)
  | failure (error : String)
  deriving DecidableEq, Repr

/-- `processAccount` from `src/index.js`, paired with the trace of HTTP
calls it issues: build the client, check the status, return early when
already checked in, otherwise check in and re-verify; any thrown error is
caught and turned into a failure result. -/
def processAccount (token : String) (proxy : Option String) (env : Env) :
    AccountResult × List Call :=
  let axiosInstance := createAxiosInstance token proxy
  let first := checkAccountStatus env.firstStatus
  match first.1 with
  | .error msg => (.failure msg, first.2)
  | .ok true => (.success true, first.2)
  | .ok false =>
    let ci := performDailyCheckin env.checkin
    match ci.1 with
    | .error msg => (.failure msg, first.2 ++ ci.2)
    | .ok _ =>
      let verify := checkAccountStatus env.secondStatus
      match verify.1 with
      | .error msg => (.failure msg, first.2 ++ ci.2 ++ verify.2)
      | .ok false =>
        (.failure "Verification failed", first.2 ++ ci.2 ++ verify.2)
      | .ok true => (.success false, first.2 ++ ci.2 ++ verify.2)

/-! ## The batch runner (`processAllAccounts`) -/

/-- The tally object built by `processAllAccounts`. -/
structure Results where
  total : Nat
  successful : Nat
  failed : Nat
  alreadyCheckedIn : Nat
  deriving DecidableEq, Repr

/-- An observable step of one batch run: processing account `i` (0-based),
or sleeping `ms` milliseconds between two accounts. -/
inductive BatchEvent
  | account (i : Nat)
  | delay (ms : Nat)
  deriving DecidableEq, Repr

/-- The proxy chosen for the `i`-th token in `processAllAccounts`:
`config.useProxy && i < proxies.length ? proxies[i] : null`. -/
def proxyFor (useProxy : Bool) (proxies : List String) (i : Nat) : Option String :=
  if useProxy && decide (i < proxies.length) then proxies[i]? else none

/-- The tally update at the end of one loop iteration of
`processAllAccounts`: a success increments `successful` (and
`alreadyCheckedIn` when the result says so), a failure increments
`failed`. -/
def tallyResult (r : Results) (result : AccountResult) : Results :=
  match result with
  | .success already =>
    { r with
      successful := r.successful + 1
      alreadyCheckedIn := if already then r.alreadyCheckedIn + 1 else r.alreadyCheckedIn }
  | .failure _ => { r with failed := r.failed + 1 }

/-- One iteration of the `for (let i = 0; ...)` loop of
`processAllAccounts`: pick the token and its proxy, process the account,
update the tally, and sleep `delayBetweenAccounts` unless this was the last
account (`i < tokens.length - 1`). -/
def batchStep (useProxy : Bool) (delayBetweenAccounts : Nat)
    (tokens proxies : List String) (envOf : Nat → Env)
    (acc : Results × List BatchEvent) (i : Nat) : Results × List BatchEvent :=
  let token := tokens.getD i ""
  let proxy := proxyFor useProxy proxies i
  let result := (processAccount token proxy (envOf i)).1
  (tallyResult acc.1 result,
   acc.2 ++ [BatchEvent.account i] ++
     (if i < tokens.length - 1 then [BatchEvent.delay delayBetweenAccounts] else []))

/-- `processAllAccounts` from `src/index.js`: start from the tally
`{total: tokens.length, successful: 0, failed: 0, alreadyCheckedIn: 0}` and
run the loop body over `i = 0, ..., tokens.length - 1`, also collecting the
trace of batch events.  `envOf i` is the network environment account `i`
sees. -/
def processAllAccounts (useProxy : Bool) (delayBetweenAccounts : Nat)
    (tokens proxies : List String) (envOf : Nat → Env) :
    Results × List BatchEvent :=
  (List.range tokens.length).foldl
    (batchStep useProxy delayBetweenAccounts tokens proxies envOf)
    ({ total := tokens.length, successful := 0, failed := 0, alreadyCheckedIn := 0 }, [])

/-! ## The outer loop (`main`) -/

/-- The inter-batch delay computed in `main`:
`config.nextRunDelayHours * 60 * 60 * 1000` milliseconds. -/
def nextRunDelay (nextRunDelayHours : Nat) : Nat :=
  nextRunDelayHours * 60 * 60 * 1000

/-- An observable step of the outer loop: batch run number `k`, the sleep
separating two batch runs, or `process.exit(code)`. -/
inductive MainEvent
  | runBatch (k : Nat)
  | sleep (ms : Nat)
  | exit (code : Nat)
  deriving DecidableEq, Repr

/-- The outer loop of `main` in `src/index.js`: run the batch; when it
resolves, sleep `delayMs` (the computed `nextRunDelay`) and call `main`
again; when it throws, `process.exit(1)`.  `ok k` says whether batch run
`k` completes without throwing; `fuel` is how many loop turns we unfold
(the real loop repeats without bound). -/
def mainTrace (delayMs : Nat) (ok : Nat → Bool) : Nat → Nat → List MainEvent
  | _, 0 => []
  | k, fuel + 1 =>
    if ok k then
      MainEvent.runBatch k :: MainEvent.sleep delayMs :: mainTrace delayMs ok (k + 1) fuel
    else
      [MainEvent.runBatch k, MainEvent.exit 1]

/-! ## Helper lemmas -/

theorem checkAccountStatus_trace (resp : Except String StatusData) :
    (checkAccountStatus resp).2 = [Call.getStatus] := rfl

theorem performDailyCheckin_trace (resp : Except String CheckinData) :
    (performDailyCheckin resp).2 = [Call.postCheckin] := rfl

/-- `processAccount` written as one nested match, with the call traces of
the three requests concatenated. -/
theorem processAccount_cases (token : String) (proxy : Option String) (env : Env) :
    processAccount token proxy env =
      match (checkAccountStatus env.firstStatus).1 with
      | .error msg => (.failure msg, [Call.getStatus])
      | .ok true => (.success true, [Call.getStatus])
      | .ok false =>
        match (performDailyCheckin env.checkin).1 with
        | .error msg => (.failure msg, [Call.getStatus, Call.postCheckin])
        | .ok _ =>
          match (checkAccountStatus env.secondStatus).1 with
          | .error msg =>
            (.failure msg, [Call.getStatus, Call.postCheckin, Call.getStatus])
          | .ok false =>
            (.failure "Verification failed",
             [Call.getStatus, Call.postCheckin, Call.getStatus])
          | .ok true =>
            (.success false, [Call.getStatus, Call.postCheckin, Call.getStatus]) := rfl

/-- A status check can only report a check-in flag when the response
resolved with body code 200. -/
theorem checkAccountStatus_ok_inv (resp : Except String StatusData) (b : Bool)
    (h : (checkAccountStatus resp).1 = .ok b) :
    ∃ s, resp = .ok s ∧ s.code = 200 ∧ s.dailyCheckinDone = b := by
  rcases resp with m | d
  · simp [checkAccountStatus] at h
  · by_cases hd : d.code = 200
    · refine ⟨d, rfl, hd, ?_⟩
      simp [checkAccountStatus, hd] at h
      exact h
    · simp [checkAccountStatus, hd] at h

/-- A check-in POST can only resolve when the response had body code 200. -/
theorem performDailyCheckin_ok_inv (resp : Except String CheckinData) (b : Bool)
    (h : (performDailyCheckin resp).1 = .ok b) :
    ∃ c, resp = .ok c ∧ c.code = 200 := by
  rcases resp with m | d
  · simp [performDailyCheckin] at h
  · by_cases hd : d.code = 200
    · exact ⟨d, rfl, hd⟩
    · simp [performDailyCheckin, hd] at h

/-! ## The claims -/

/-- C1: the claim says a failed request is retried iff it is a network error
or its status is one of {429, 500, 502, 503, 504} — and the code's own
comment says the same — but the installed `retryCondition` also calls
`axios-retry`'s `isRetryableError`, which accepts every 5xx status: a
response with status 501 is retried although it is neither a network error
nor in the listed set. -/
theorem retryCondition_accepts_501 :
    retryCondition { responseStatus := some 501, code := none } = true ∧
    isNetworkError { responseStatus := some 501, code := none } = false ∧
    ([429, 500, 502, 503, 504].contains 501) = false := by
  decide

/-- C2 (as stated) is false: an account whose first status check reports the
daily check-in as already done gets exactly one HTTP call, not three. -/
theorem processAccount_three_calls_claim_false :
    (processAccount "token" none
      { firstStatus := .ok { code := 200, dailyCheckinDone := true },
        checkin := .ok { code := 200 },
        secondStatus := .ok { code := 200, dailyCheckinDone := true } }).2
      = [Call.getStatus] ∧
    [Call.getStatus] ≠ [Call.getStatus, Call.postCheckin, Call.getStatus] := by
  decide

/-- C2 (amended): every account's trace of HTTP calls is a prefix of
GET status, POST check-in, GET status — one, two or all three of them, in
that order — and it is exactly the three calls precisely when the first
status check succeeds with code 200 reporting the check-in as not done and
the check-in POST succeeds with code 200. -/
theorem processAccount_calls_shape (token : String) (proxy : Option String) (env : Env) :
    ((processAccount token proxy env).2 = [Call.getStatus] ∨
      (processAccount token proxy env).2 = [Call.getStatus, Call.postCheckin] ∨
      (processAccount token proxy env).2 =
        [Call.getStatus, Call.postCheckin, Call.getStatus]) ∧
    (∀ s c, env.firstStatus = .ok s → s.code = 200 → s.dailyCheckinDone = false →
      env.checkin = .ok c → c.code = 200 →
      (processAccount token proxy env).2 =
        [Call.getStatus, Call.postCheckin, Call.getStatus]) ∧
    ((processAccount token proxy env).2 =
        [Call.getStatus, Call.postCheckin, Call.getStatus] →
      (∃ s, env.firstStatus = .ok s ∧ s.code = 200 ∧ s.dailyCheckinDone = false) ∧
      (∃ c, env.checkin = .ok c ∧ c.code = 200)) := by
  rw [processAccount_cases]
  refine ⟨?_, ?_, ?_⟩
  · rcases hfs : (checkAccountStatus env.firstStatus).1 with m | b
    · simp [hfs]
    · cases b
      · rcases hc : (performDailyCheckin env.checkin).1 with m | b2
        · simp [hfs, hc]
        · rcases hss : (checkAccountStatus env.secondStatus).1 with m | b3
          · simp [hfs, hc, hss]
          · cases b3 <;> simp [hfs, hc, hss]
      · simp [hfs]
  · intro s c hf h200 hnd hc hc200
    have h1 : (checkAccountStatus env.firstStatus).1 = .ok false := by
      simp [checkAccountStatus, hf, h200, hnd]
    have h2 : (performDailyCheckin env.checkin).1 = .ok true := by
      simp [performDailyCheckin, hc, hc200]
    rcases hss : (checkAccountStatus env.secondStatus).1 with m | b3
    · simp [h1, h2, hss]
    · cases b3 <;> simp [h1, h2, hss]
  · rcases hfs : (checkAccountStatus env.firstStatus).1 with m | b
    · simp [hfs]
    · cases b
      · rcases hc : (performDailyCheckin env.checkin).1 with m | b2
        · simp [hfs, hc]
        · intro _
          obtain ⟨s, hs, hs200, hsd⟩ := checkAccountStatus_ok_inv env.firstStatus false hfs
          obtain ⟨c, hcq, hc200⟩ := performDailyCheckin_ok_inv env.checkin b2 hc
          exact ⟨⟨s, hs, hs200, hsd⟩, ⟨c, hcq, hc200⟩⟩
      · simp [hfs]

/-- C2 witness: a run where all three calls happen, at a concrete input. -/
theorem processAccount_calls_shape_witness :
    (processAccount "token" none
      { firstStatus := .ok { code := 200, dailyCheckinDone := false },
        checkin := .ok { code := 200 },
        secondStatus := .ok { code := 200, dailyCheckinDone := true } }).2
      = [Call.getStatus, Call.postCheckin, Call.getStatus] :=
  (processAccount_calls_shape "token" none
    { firstStatus := .ok { code := 200, dailyCheckinDone := false },
      checkin := .ok { code := 200 },
      secondStatus := .ok { code := 200, dailyCheckinDone := true } }).2.1
    { code := 200, dailyCheckinDone := false } { code := 200 } rfl rfl rfl rfl rfl

/-- C3: when the first status check succeeds with code 200 and reports the
daily check-in as already done, `processAccount` returns a success marked
`alreadyCheckedIn` and its whole trace is that single GET: no POST and no
second status check happen. -/
theorem processAccount_already_checked_in (token : String) (proxy : Option String)
    (env : Env) (s : StatusData) (hf : env.firstStatus = .ok s) (h200 : s.code = 200)
    (hdone : s.dailyCheckinDone = true) :
    processAccount token proxy env = (.success true, [Call.getStatus]) := by
  rw [processAccount_cases]
  simp [checkAccountStatus, hf, h200, hdone]

/-- C3 witness: the already-checked-in outcome at a concrete input. -/
theorem processAccount_already_checked_in_witness :
    processAccount "token-a" none
      { firstStatus := .ok { code := 200, dailyCheckinDone := true },
        checkin := .error "unused",
        secondStatus := .error "unused" }
      = (.success true, [Call.getStatus]) :=
  processAccount_already_checked_in "token-a" none
    { firstStatus := .ok { code := 200, dailyCheckinDone := true },
      checkin := .error "unused",
      secondStatus := .error "unused" }
    { code := 200, dailyCheckinDone := true } rfl rfl rfl

/-- C4: when the first status check succeeds reporting not-checked-in and
the check-in POST succeeds with code 200 but the re-verification still
reports the check-in as not done, `processAccount` fails with error
`Verification failed`; and a success with `alreadyCheckedIn = false` arises
only when the re-verification succeeded with code 200 and reported the
check-in as done. -/
theorem processAccount_verification (token : String) (proxy : Option String) (env : Env) :
    (∀ s c v, env.firstStatus = .ok s → s.code = 200 → s.dailyCheckinDone = false →
      env.checkin = .ok c → c.code = 200 →
      env.secondStatus = .ok v → v.code = 200 → v.dailyCheckinDone = false →
      processAccount token proxy env =
        (.failure "Verification failed",
         [Call.getStatus, Call.postCheckin, Call.getStatus])) ∧
    ((processAccount token proxy env).1 = .success false →
      ∃ v, env.secondStatus = .ok v ∧ v.code = 200 ∧ v.dailyCheckinDone = true) := by
  constructor
  · intro s c v hf h200 hnd hc hc200 hv hv200 hvd
    rw [processAccount_cases]
    simp [checkAccountStatus, performDailyCheckin, hf, h200, hnd, hc, hc200, hv, hv200,
      hvd]
  · rw [processAccount_cases]
    rcases hfs : (checkAccountStatus env.firstStatus).1 with m | b
    · simp [hfs]
    · cases b
      · rcases hc : (performDailyCheckin env.checkin).1 with m | b2
        · simp [hfs, hc]
        · rcases hss : (checkAccountStatus env.secondStatus).1 with m | b3
          · simp [hfs, hc, hss]
          · cases b3
            · simp [hfs, hc, hss]
            · simp only [hfs, hc, hss]
              intro _
              rcases h : env.secondStatus with m | v
              · rw [h] at hss
                simp [checkAccountStatus] at hss
              · rw [h] at hss
                by_cases hvc : v.code = 200
                · refine ⟨v, rfl, hvc, ?_⟩
                  simp [checkAccountStatus, hvc] at hss
                  exact hss
                · simp [checkAccountStatus, hvc] at hss
      · simp [hfs]

/-- C4 witness: the `Verification failed` outcome at a concrete input. -/
theorem processAccount_verification_witness :
    processAccount "token-b" none
      { firstStatus := .ok { code := 200, dailyCheckinDone := false },
        checkin := .ok { code := 200 },
        secondStatus := .ok { code := 200, dailyCheckinDone := false } }
      = (.failure "Verification failed",
         [Call.getStatus, Call.postCheckin, Call.getStatus]) :=
  (processAccount_verification "token-b" none
    { firstStatus := .ok { code := 200, dailyCheckinDone := false },
      checkin := .ok { code := 200 },
      secondStatus := .ok { code := 200, dailyCheckinDone := false } }).1
    { code := 200, dailyCheckinDone := false } { code := 200 }
    { code := 200, dailyCheckinDone := false } rfl rfl rfl rfl rfl rfl rfl rfl

/-- C5 (as stated) is false for `loadProxies`: when `config.useProxy` is
false it returns `[]` no matter what `proxy.txt` holds, so for a file whose
single line is `a` it does not return that line. -/
theorem loadProxies_claim_false :
    loadProxies false true ['a'] = [] ∧
    specLoadedLines ['a'] = [['a']] ∧
    ([] : List (List Char)) ≠ [['a']] := by
  decide

/-- C5 (amended): `loadTokens` (when `data.txt` exists), and `loadProxies`
when `config.useProxy` is true and `proxy.txt` exists, return exactly the
file's lines in file order, trimmed, with the lines dropped that are empty
after trimming or whose trimmed form starts with `#`; the result is an
order-preserving sublist of the trimmed lines and no returned entry is
empty or starts with `#`.  With `useProxy` false, or the file missing,
`loadProxies` instead returns `[]` regardless of the file's content. -/
theorem loaders_return_filtered_lines (useProxy proxyTxtExists : Bool)
    (tokensData proxiesData : List Char) :
    loadTokens true tokensData = some (specLoadedLines tokensData) ∧
    loadProxies true true proxiesData = specLoadedLines proxiesData ∧
    (useProxy = false → loadProxies useProxy proxyTxtExists proxiesData = []) ∧
    (proxyTxtExists = false → loadProxies useProxy proxyTxtExists proxiesData = []) ∧
    List.Sublist (specLoadedLines tokensData) ((splitLines tokensData).map trimChars) ∧
    List.Sublist (specLoadedLines proxiesData) ((splitLines proxiesData).map trimChars) ∧
    (∀ line ∈ specLoadedLines tokensData,
      line.isEmpty = false ∧ startsWithHash line = false) ∧
    (∀ line ∈ specLoadedLines proxiesData,
      line.isEmpty = false ∧ startsWithHash line = false) := by
  refine ⟨rfl, rfl, ?_, ?_, List.filter_sublist _, List.filter_sublist _, ?_, ?_⟩
  · intro hu
    subst hu
    rfl
  · intro hp
    subst hp
    cases useProxy <;> rfl
  all_goals
  · intro line hline
    rcases List.mem_filter.1 hline with ⟨-, hgood⟩
    simp only [Bool.and_eq_true, Bool.not_eq_true'] at hgood
    exact hgood

/-- C5 witness: the loaders evaluated on concrete file contents (a token
line and a comment; a proxy line with surrounding blanks; a proxy file
ignored because `useProxy` is false, and one ignored because the file is
missing). -/
theorem loaders_return_filtered_lines_witness :
    loadTokens true ['a', '\n', '#', 'b'] = some [['a']] ∧
    loadProxies true true [' ', 'p', ' '] = [['p']] ∧
    loadProxies false true ['p'] = [] ∧
    loadProxies true false ['p'] = [] := by
  have h := loaders_return_filtered_lines false true ['a', '\n', '#', 'b']
    [' ', 'p', ' ']
  have h2 := loaders_return_filtered_lines false true ['a'] ['p']
  have h3 := loaders_return_filtered_lines true false ['a'] ['p']
  exact ⟨h.1.trans (by decide), h.2.1.trans (by decide), h2.2.2.1 rfl,
    h3.2.2.2.1 rfl⟩

/-- The `k`-th (0-based) delay slept by the retry loop started with `n`
retries already performed is `2 ^ (n + 1 + k)` times the configured base
delay. -/
theorem retryDelays_getD (cond : HttpError → Bool) (base : Nat)
    (out : Nat → Option HttpError) :
    ∀ (budget n k : Nat), k < (retryDelays cond base out budget n).length →
      (retryDelays cond base out budget n).getD k 0 = 2 ^ (n + 1 + k) * base := by
  intro budget
  induction budget with
  | zero =>
    intro n k h
    rcases ho : out n with _ | e <;> simp [retryDelays, ho] at h
  | succ b ih =>
    intro n k h
    rcases ho : out n with _ | e
    · simp [retryDelays, ho] at h
    · by_cases hc : cond e = true
      · have hrw : retryDelays cond base out (b + 1) n
            = retryDelay base (n + 1) :: retryDelays cond base out b (n + 1) := by
          simp [retryDelays, ho, hc]
        rcases k with _ | k
        · rw [hrw]
          simp [retryDelay]
        · rw [hrw] at h ⊢
          simp only [List.getD_cons_succ]
          have h' : k < (retryDelays cond base out b (n + 1)).length := by
            simpa using h
          rw [ih (n + 1) k h']
          have harith : n + 1 + 1 + k = n + 1 + (k + 1) := by omega
          rw [harith]
      · simp [retryDelays, ho, hc] at h

/-- C7: when a request is retried, the delay slept before retry attempt `n`
(`n = 1, 2, ...`) is exactly `2 ^ n * config.retryDelay` milliseconds, and
that is what the configured `retryDelay` callback computes. -/
theorem retry_backoff_exponential (cond : HttpError → Bool) (base : Nat)
    (out : Nat → Option HttpError) (budget n : Nat) (hn : 1 ≤ n)
    (h : n - 1 < (retryDelays cond base out budget 0).length) :
    (retryDelays cond base out budget 0).getD (n - 1) 0 = 2 ^ n * base ∧
    retryDelay base n = 2 ^ n * base := by
  refine ⟨?_, rfl⟩
  rw [retryDelays_getD cond base out budget 0 (n - 1) h]
  have harith : 0 + 1 + (n - 1) = n := by omega
  rw [harith]

/-- C7 witness: with base delay 1000 and every attempt failing with a
retryable status, the delay before retry attempt 2 is `2 ^ 2 * 1000`. -/
theorem retry_backoff_exponential_witness :
    (retryDelays (fun _ => true) 1000
      (fun _ => some { responseStatus := some 500, code := none }) 3 0).getD (2 - 1) 0
      = 2 ^ 2 * 1000 :=
  (retry_backoff_exponential (fun _ => true) 1000
    (fun _ => some { responseStatus := some 500, code := none }) 3 2
    (by decide) (by decide)).1

/-- The tally update never changes `total`. -/
theorem tallyResult_total (r : Results) (res : AccountResult) :
    (tallyResult r res).total = r.total := by
  cases res <;> rfl

/-- The tally update increments exactly one of `successful` and `failed`. -/
theorem tallyResult_sum (r : Results) (res : AccountResult) :
    (tallyResult r res).successful + (tallyResult r res).failed
      = r.successful + r.failed + 1 := by
  cases res <;> simp [tallyResult] <;> omega

/-- The tally update preserves `alreadyCheckedIn ≤ successful`. -/
theorem tallyResult_already (r : Results) (res : AccountResult)
    (h : r.alreadyCheckedIn ≤ r.successful) :
    (tallyResult r res).alreadyCheckedIn ≤ (tallyResult r res).successful := by
  rcases res with a | m
  · rcases a <;> simp [tallyResult] <;> omega
  · simpa [tallyResult] using h

/-- Folding the batch loop body keeps `total`, adds one classified account
per iteration, and preserves `alreadyCheckedIn ≤ successful`. -/
theorem foldl_batchStep_results (useProxy : Bool) (d : Nat)
    (tokens proxies : List String) (envOf : Nat → Env) :
    ∀ (l : List Nat) (acc : Results × List BatchEvent),
      (l.foldl (batchStep useProxy d tokens proxies envOf) acc).1.total
          = acc.1.total ∧
      (l.foldl (batchStep useProxy d tokens proxies envOf) acc).1.successful
          + (l.foldl (batchStep useProxy d tokens proxies envOf) acc).1.failed
          = acc.1.successful + acc.1.failed + l.length ∧
      (acc.1.alreadyCheckedIn ≤ acc.1.successful →
        (l.foldl (batchStep useProxy d tokens proxies envOf) acc).1.alreadyCheckedIn
          ≤ (l.foldl (batchStep useProxy d tokens proxies envOf) acc).1.successful) := by
  intro l
  induction l with
  | nil => intro acc; simp
  | cons x l ih =>
    intro acc
    have hstep1 : (batchStep useProxy d tokens proxies envOf acc x).1
        = tallyResult acc.1
            ((processAccount (tokens.getD x "") (proxyFor useProxy proxies x)
              (envOf x)).1) := rfl
    obtain ⟨ht, hs, ha⟩ := ih (batchStep useProxy d tokens proxies envOf acc x)
    refine ⟨?_, ?_, ?_⟩
    · rw [List.foldl_cons, ht, hstep1, tallyResult_total]
    · rw [List.foldl_cons, hs, hstep1, tallyResult_sum]
      simp only [List.length_cons]
      omega
    · intro h
      rw [List.foldl_cons]
      exact ha (by rw [hstep1]; exact tallyResult_already _ _ h)

/-- C6: for every batch run, the tally satisfies `total = tokens.length`,
`successful + failed = total`, and `alreadyCheckedIn ≤ successful`: every
account is classified as exactly one of successful or failed. -/
theorem processAllAccounts_tally (useProxy : Bool) (d : Nat)
    (tokens proxies : List String) (envOf : Nat → Env) :
    (processAllAccounts useProxy d tokens proxies envOf).1.total = tokens.length ∧
    (processAllAccounts useProxy d tokens proxies envOf).1.successful
      + (processAllAccounts useProxy d tokens proxies envOf).1.failed
      = (processAllAccounts useProxy d tokens proxies envOf).1.total ∧
    (processAllAccounts useProxy d tokens proxies envOf).1.alreadyCheckedIn
      ≤ (processAllAccounts useProxy d tokens proxies envOf).1.successful := by
  obtain ⟨ht, hs, ha⟩ := foldl_batchStep_results useProxy d tokens proxies envOf
    (List.range tokens.length)
    ({ total := tokens.length, successful := 0, failed := 0, alreadyCheckedIn := 0 }, [])
  refine ⟨ht, ?_, ha (Nat.le_refl 0)⟩
  rw [processAllAccounts] at *
  rw [ht, hs]
  simp

/-- Folding the batch loop body appends, per index, the account event and
(except after the last account) one delay event. -/
theorem foldl_batchStep_trace (useProxy : Bool) (d : Nat)
    (tokens proxies : List String) (envOf : Nat → Env) :
    ∀ (l : List Nat) (acc : Results × List BatchEvent),
      (l.foldl (batchStep useProxy d tokens proxies envOf) acc).2
        = acc.2 ++ l.flatMap (fun i =>
            BatchEvent.account i ::
              (if i < tokens.length - 1 then [BatchEvent.delay d] else [])) := by
  intro l
  induction l with
  | nil => intro acc; simp
  | cons x l ih =>
    intro acc
    rw [List.foldl_cons, ih, List.flatMap_cons]
    simp [batchStep, List.append_assoc]

/-- `flatMap`s respect pointwise equality on the list's members. -/
theorem flatMap_congr_mem {α β : Type} {l : List α} {f g : α → List β}
    (h : ∀ x ∈ l, f x = g x) : l.flatMap f = l.flatMap g := by
  induction l with
  | nil => rfl
  | cons x l ih =>
    rw [List.flatMap_cons, List.flatMap_cons, h x (List.mem_cons_self x l),
      ih (fun y hy => h y (List.mem_cons_of_mem x hy))]

/-- Emitting an element followed by a separator for every list member, and
then one final element, is interspersing the separator. -/
theorem flatMap_pair_append_intersperse {α β : Type} (sep : β) (g : α → β) (a : β) :
    ∀ L : List α,
      (L.flatMap (fun x => [g x, sep])) ++ [a] = List.intersperse sep (L.map g ++ [a]) := by
  intro L
  induction L with
  | nil => simp [List.intersperse]
  | cons x L ih =>
    cases L with
    | nil => simp [List.intersperse]
    | cons y L' =>
      calc ((x :: y :: L').flatMap fun z => [g z, sep]) ++ [a]
          = g x :: sep :: (((y :: L').flatMap fun z => [g z, sep]) ++ [a]) := by
            simp
        _ = g x :: sep :: List.intersperse sep ((y :: L').map g ++ [a]) := by rw [ih]
        _ = List.intersperse sep ((x :: y :: L').map g ++ [a]) := rfl

/-- C8: the event trace of one batch run is the accounts `0, ...,
tokens.length - 1` processed in order, strictly one at a time, with exactly
one `delayBetweenAccounts` sleep between consecutive accounts and none
after the last. -/
theorem processAllAccounts_trace (useProxy : Bool) (d : Nat)
    (tokens proxies : List String) (envOf : Nat → Env) :
    (processAllAccounts useProxy d tokens proxies envOf).2
      = List.intersperse (BatchEvent.delay d)
          ((List.range tokens.length).map BatchEvent.account) := by
  rw [processAllAccounts, foldl_batchStep_trace]
  simp only [List.nil_append]
  generalize tokens.length = n
  cases n with
  | zero => simp
  | succ m =>
    rw [List.range_succ, List.flatMap_append, List.map_append]
    have hbody : (List.range m).flatMap (fun i =>
          BatchEvent.account i ::
            (if i < m + 1 - 1 then [BatchEvent.delay d] else []))
        = (List.range m).flatMap (fun i => [BatchEvent.account i, BatchEvent.delay d]) := by
      apply flatMap_congr_mem
      intro i hi
      have hil : i < m := List.mem_range.1 hi
      simp [hil]
    have hlast : [m].flatMap (fun i =>
          BatchEvent.account i ::
            (if i < m + 1 - 1 then [BatchEvent.delay d] else []))
        = [BatchEvent.account m] := by
      simp
    rw [hbody, hlast]
    simpa using flatMap_pair_append_intersperse (BatchEvent.delay d)
      BatchEvent.account (BatchEvent.account m) (List.range m)

/-- When every batch run succeeds, the outer loop's trace alternates batch
runs and sleeps of the configured delay, for as many turns as we unfold. -/
theorem mainTrace_all_ok (d : Nat) (ok : Nat → Bool) (hok : ∀ j, ok j = true) :
    ∀ (fuel k : Nat),
      mainTrace d ok k fuel
        = (List.range' k fuel).flatMap
            (fun j => [MainEvent.runBatch j, MainEvent.sleep d]) := by
  intro fuel
  induction fuel with
  | zero => intro k; simp [mainTrace]
  | succ f ih =>
    intro k
    rw [List.range'_succ k f 1, List.flatMap_cons]
    simp [mainTrace, hok k, ih]

/-- When batch run `t` is the first to throw, the outer loop runs batches
`k, ..., t`, sleeping between consecutive runs, and exits with code 1. -/
theorem mainTrace_stops (d : Nat) (ok : Nat → Bool) (t : Nat) :
    ∀ (fuel k : Nat), (∀ j, k ≤ j → j < t → ok j = true) → ok t = false →
      k ≤ t → t < k + fuel →
      mainTrace d ok k fuel
        = (List.range' k (t - k)).flatMap
            (fun j => [MainEvent.runBatch j, MainEvent.sleep d])
          ++ [MainEvent.runBatch t, MainEvent.exit 1] := by
  intro fuel
  induction fuel with
  | zero =>
    intro k _ _ hk hlt
    omega
  | succ f ih =>
    intro k hpre hf hk hlt
    by_cases hkt : k = t
    · subst hkt
      simp [mainTrace, hf, Nat.sub_self]
    · have hklt : k < t := lt_of_le_of_ne hk hkt
      have hok : ok k = true := hpre k le_rfl hklt
      have ht : t - k = (t - (k + 1)) + 1 := by omega
      simp only [mainTrace, hok, if_true]
      rw [ih (k + 1) (fun j hj1 hj2 => hpre j (by omega) hj2) hf (by omega) (by omega)]
      rw [ht, List.range'_succ k _ 1, List.flatMap_cons]
      simp

/-- C9: the inter-batch delay is `nextRunDelayHours * 60 * 60 * 1000`
milliseconds; while every batch run completes, each run is followed by
exactly one sleep of that delay and then the next run, without bound; and
the process exits (code 1) exactly at the first batch run that throws. -/
theorem main_outer_loop (d hours : Nat) (ok : Nat → Bool) (t : Nat) :
    nextRunDelay hours = hours * 3600000 ∧
    ((∀ k, ok k = true) → ∀ fuel,
      mainTrace d ok 0 fuel
        = (List.range fuel).flatMap
            (fun j => [MainEvent.runBatch j, MainEvent.sleep d])) ∧
    ((∀ j, j < t → ok j = true) → ok t = false → ∀ fuel, t < fuel →
      mainTrace d ok 0 fuel
        = (List.range t).flatMap
            (fun j => [MainEvent.runBatch j, MainEvent.sleep d])
          ++ [MainEvent.runBatch t, MainEvent.exit 1]) := by
  refine ⟨?_, ?_, ?_⟩
  · show hours * 60 * 60 * 1000 = hours * 3600000
    omega
  · intro hok fuel
    rw [mainTrace_all_ok d ok hok fuel 0, List.range_eq_range']
  · intro hpre hf fuel hlt
    rw [mainTrace_stops d ok t fuel 0 (fun j _ hj => hpre j hj) hf (Nat.zero_le t)
      (by omega)]
    simp [List.range_eq_range']

/-- C9 witness: two unfoldings with every batch succeeding, and a first
batch that throws, at concrete inputs. -/
theorem main_outer_loop_witness :
    mainTrace 9 (fun _ => true) 0 2
      = [MainEvent.runBatch 0, MainEvent.sleep 9, MainEvent.runBatch 1,
         MainEvent.sleep 9] ∧
    mainTrace 9 (fun _ => false) 0 3 = [MainEvent.runBatch 0, MainEvent.exit 1] := by
  constructor
  · have h := (main_outer_loop 9 25 (fun _ => true) 0).2.1 (fun _ => rfl) 2
    exact h.trans (by decide)
  · have h := (main_outer_loop 9 25 (fun _ => false) 0).2.2
      (fun j hj => absurd hj (Nat.not_lt_zero j)) rfl 3 (by omega)
    exact h.trans (by decide)

/-- C10: the proxy given to the client of the `i`-th token is the `i`-th
loaded proxy exactly when `useProxy` is true and `i` is within the proxy
list, and `null` otherwise; with `useProxy` false the client never gets a
proxy agent; an index at or past the end of the proxy list yields `null`
rather than an out-of-range access. -/
theorem proxy_assignment (useProxy : Bool) (proxies : List String) (i : Nat)
    (token : String) :
    proxyFor useProxy proxies i
      = (if useProxy = true ∧ i < proxies.length then proxies[i]? else none) ∧
    (∀ h : i < proxies.length, useProxy = true →
      proxyFor useProxy proxies i = some (proxies.get ⟨i, h⟩)) ∧
    (useProxy = false →
      (createAxiosInstance token (proxyFor useProxy proxies i)).httpsAgent = none) ∧
    (proxies.length ≤ i → proxyFor useProxy proxies i = none) ∧
    (∀ p, proxyFor useProxy proxies i = some p → p.isEmpty = false →
      (createAxiosInstance token (proxyFor useProxy proxies i)).httpsAgent = some p) := by
  refine ⟨?_, ?_, ?_, ?_, ?_⟩
  · by_cases hu : useProxy = true <;> by_cases hi : i < proxies.length <;>
      simp [proxyFor, hu, hi]
  · intro h hu
    simp [proxyFor, hu, h, List.getElem?_eq_getElem, List.get_eq_getElem]
  · intro hu
    simp [proxyFor, hu, createAxiosInstance]
  · intro hle
    have hni : ¬ i < proxies.length := by omega
    simp [proxyFor, hni]
  · intro p hp hempty
    rw [hp]
    simp [createAxiosInstance, hempty]

/-- C10 witness: with `useProxy` true the first client gets the first
proxy's agent; with `useProxy` false it gets none, at concrete inputs. -/
theorem proxy_assignment_witness :
    proxyFor true ["http://u:p@host:8080"] 0 = some "http://u:p@host:8080" ∧
    (createAxiosInstance "tok" (proxyFor true ["http://u:p@host:8080"] 0)).httpsAgent
      = some "http://u:p@host:8080" ∧
    proxyFor false ["http://u:p@host:8080"] 0 = none := by
  have h1 := proxy_assignment true ["http://u:p@host:8080"] 0 "tok"
  have h2 := proxy_assignment false ["http://u:p@host:8080"] 0 "tok"
  refine ⟨h1.1.trans (by decide), ?_, h2.1.trans (by decide)⟩
  exact h1.2.2.2.2 "http://u:p@host:8080" (h1.1.trans (by decide)) (by decide)

end Cess
